import Mathlib

/-!
Verification of the in-memory task-management CRUD service implemented in
`server.js` of `apiresttodolist`.

The service keeps a mutable array `tasks` of task records and a counter
`nextId`, and exposes five HTTP handlers: list, get-by-id, create, update and
delete.  We embed the handlers as pure functions over an explicit `Store`
state.  JavaScript values that flow through the handlers (request-body fields
and the stored `title`/`description`/`completed` fields) are modelled by
`JsVal`; an absent (`undefined`) body field is `Option.none`.  Timestamps
(`new Date().toISOString()`) are abstracted as naturals passed in as `now`.
`parseInt` on the `:id` path segment is modelled by `parseIntJs`, with `none`
standing for `NaN`.
-/

namespace TodoApi

/-- A JSON/JavaScript value as far as the service inspects one: the handlers
only ever test truthiness and copy values around, so strings, booleans,
integers and `null` suffice. -/
inductive JsVal where
  | vStr (s : String)
  | vBool (b : Bool)
  | vNum (n : Int)
  | vNull
deriving Repr, DecidableEq

/-- JavaScript truthiness of a `JsVal`: `""`, `false`, `0` and `null` are
falsy, everything else is truthy. -/
def JsVal.truthy : JsVal → Bool
  | .vStr s => decide (s ≠ "")
  | .vBool b => b
  | .vNum n => decide (n ≠ 0)
  | .vNull => false

/-- Truthiness of a possibly-`undefined` value (`undefined` is falsy). -/
def truthyOpt : Option JsVal → Bool
  | none => false
  | some v => v.truthy

/-- JavaScript `x || d` where `x` may be `undefined`: yields `x` when truthy,
otherwise the default `d`. -/
def jsOr : Option JsVal → JsVal → JsVal
  | some v, d => if v.truthy then v else d
  | none, d => d

/-- Decimal digit test for `parseIntJs`. -/
def isDecDigit (c : Char) : Bool := '0' ≤ c && c ≤ '9'

/-- Hexadecimal digit test for `parseIntJs`. -/
def isHexDigitJs (c : Char) : Bool :=
  isDecDigit c || ('a' ≤ c && c ≤ 'f') || ('A' ≤ c && c ≤ 'F')

/-- Numeric value of a decimal or hexadecimal digit character. -/
def hexVal (c : Char) : Nat :=
  if '0' ≤ c && c ≤ '9' then c.toNat - 48
  else if 'a' ≤ c && c ≤ 'f' then c.toNat - 87
  else c.toNat - 55

/-- Value of a digit string in the given base, most significant first. -/
def digitsToNat (base : Nat) (cs : List Char) : Nat :=
  cs.foldl (fun acc c => acc * base + hexVal c) 0

/-- Whitespace skipped by JavaScript `parseInt`. -/
def isJsSpace (c : Char) : Bool :=
  c = ' ' || c = '\t' || c = '\n' || c = '\r' || c = '\x0b' || c = '\x0c'

/-- JavaScript `parseInt(s)` with no explicit radix: skip leading whitespace,
read an optional sign, detect a `0x`/`0X` prefix (radix 16), then take the
longest prefix of digits; `none` models `NaN` (no digits at all).  Note that a
string such as `"1abc"` parses to `1`: `parseInt` stops at the first
non-digit rather than rejecting the string. -/
def parseIntJs (s : String) : Option Int :=
  let cs := s.data.dropWhile isJsSpace
  let signed : Int × List Char :=
    match cs with
    | '-' :: rest => (-1, rest)
    | '+' :: rest => (1, rest)
    | _ => (1, cs)
  let sign := signed.1
  let cs1 := signed.2
  match cs1 with
  | '0' :: x :: rest =>
    if x = 'x' || x = 'X' then
      let ds := rest.takeWhile isHexDigitJs
      if ds.isEmpty then none else some (sign * digitsToNat 16 ds)
    else
      let ds := cs1.takeWhile isDecDigit
      if ds.isEmpty then none else some (sign * digitsToNat 10 ds)
  | _ =>
    let ds := cs1.takeWhile isDecDigit
    if ds.isEmpty then none else some (sign * digitsToNat 10 ds)

/-- A stored task record.  `id` and `createdAt` are set at creation;
`updatedAt` is absent until the first update.  `title`, `description` and
`completed` hold whatever JavaScript values the handlers stored (the code
performs no type validation, so they are general `JsVal`s). -/
structure Task where
  id : Nat
  title : JsVal
  description : JsVal
  completed : JsVal
  createdAt : Nat
  updatedAt : Option Nat
deriving Repr, DecidableEq

/-- A request body for create/update: each of the three recognised fields is
either absent (`undefined` after destructuring) or some JavaScript value. -/
structure Body where
  title : Option JsVal
  description : Option JsVal
  completed : Option JsVal
deriving Repr, DecidableEq

/-- The mutable server state: the `tasks` array and the `nextId` counter. -/
structure Store where
  tasks : List Task
  nextId : Nat
deriving Repr, DecidableEq

/-- The task seeded at startup: `{ id: 1, title: 'Tarefa Exemplo',
description: 'Primeira tarefa', completed: false, createdAt: ... }`. -/
def seedTask (t0 : Nat) : Task :=
  { id := 1, title := .vStr "Tarefa Exemplo", description := .vStr "Primeira tarefa",
    completed := .vBool false, createdAt := t0, updatedAt := none }

/-- The initial store: the single seeded task and `nextId = 2`. -/
def initStore (t0 : Nat) : Store := { tasks := [seedTask t0], nextId := 2 }

/-- A JSON response as the handlers build it: HTTP status, the `success`
flag, the optional `message` and the optional single-task `data` payload. -/
structure Resp where
  status : Nat
  success : Bool
  message : Option String
  data : Option Task
deriving Repr, DecidableEq

/-- The response of the list endpoint: `{success, data, total}`. -/
structure ListResp where
  success : Bool
  data : List Task
  total : Nat
deriving Repr, DecidableEq

/-- The 404 response `{success:false, message:'Tarefa não encontrada'}`. -/
def notFound : Resp :=
  { status := 404, success := false, message := some "Tarefa não encontrada", data := none }

/-- Does task `t` match the parsed id `i` (`t.id === id`)? -/
def idMatches (i : Int) (t : Task) : Bool := (t.id : Int) == i

/-- `POST /api/tasks`: reject with 400 when `title` is falsy; otherwise build
the new task (`id: nextId++`, `description: description || ''`,
`completed: completed || false`, fresh `createdAt`, no `updatedAt`), push it
onto the array and answer 201 with the created record. -/
def createTask (st : Store) (body : Body) (now : Nat) : Resp × Store :=
  if truthyOpt body.title then
    match body.title with
    | some t =>
      let newTask : Task :=
        { id := st.nextId, title := t,
          description := jsOr body.description (.vStr ""),
          completed := jsOr body.completed (.vBool false),
          createdAt := now, updatedAt := none }
      ({ status := 201, success := true, message := some "Tarefa criada com sucesso",
         data := some newTask },
       { tasks := st.tasks ++ [newTask], nextId := st.nextId + 1 })
    | none =>
      ({ status := 400, success := false,
         message := some "O campo \"title\" é obrigatório", data := none }, st)
  else
    ({ status := 400, success := false,
       message := some "O campo \"title\" é obrigatório", data := none }, st)

/-- `GET /api/tasks`: always succeeds with all tasks and their count. -/
def listTasks (st : Store) : ListResp :=
  { success := true, data := st.tasks, total := st.tasks.length }

/-- `GET /api/tasks/:id`: `parseInt` the segment, `find` the first task with
that id, answer 200 with it or 404. -/
def getTask (st : Store) (seg : String) : Resp :=
  match parseIntJs seg with
  | none => notFound
  | some i =>
    match st.tasks.find? (idMatches i) with
    | some t => { status := 200, success := true, message := none, data := some t }
    | none => notFound

/-- The merge performed by `PUT`: spread the old record, then spread each
field present (not `undefined`) in the body over it, then set `updatedAt`. -/
def mergeTask (old : Task) (body : Body) (now : Nat) : Task :=
  { old with
    title := body.title.getD old.title,
    description := body.description.getD old.description,
    completed := body.completed.getD old.completed,
    updatedAt := some now }

/-- `PUT /api/tasks/:id`: `parseInt` the segment, `findIndex` the task,
404 when absent; otherwise overwrite the slot with the merged record and
answer 200 with it. -/
def updateTask (st : Store) (seg : String) (body : Body) (now : Nat) : Resp × Store :=
  match parseIntJs seg with
  | none => (notFound, st)
  | some i =>
    match st.tasks.findIdx? (idMatches i) with
    | none => (notFound, st)
    | some idx =>
      match st.tasks[idx]? with
      | none => (notFound, st)
      | some old =>
        let u := mergeTask old body now
        ({ status := 200, success := true, message := some "Tarefa atualizada com sucesso",
           data := some u },
         { tasks := st.tasks.set idx u, nextId := st.nextId })

/-- `DELETE /api/tasks/:id`: `parseInt` the segment, `findIndex` the task,
404 when absent; otherwise `splice` it out and answer 200 with the removed
record. -/
def deleteTask (st : Store) (seg : String) : Resp × Store :=
  match parseIntJs seg with
  | none => (notFound, st)
  | some i =>
    match st.tasks.findIdx? (idMatches i) with
    | none => (notFound, st)
    | some idx =>
      match st.tasks[idx]? with
      | none => (notFound, st)
      | some old =>
        ({ status := 200, success := true, message := some "Tarefa deletada com sucesso",
           data := some old },
         { tasks := st.tasks.eraseIdx idx, nextId := st.nextId })

/-- A state-changing operation of the service (list and get leave the state
untouched). -/
inductive Op where
  | create (body : Body) (now : Nat)
  | update (seg : String) (body : Body) (now : Nat)
  | del (seg : String)
deriving Repr

/-- The state after running one operation. -/
def step (st : Store) : Op → Store
  | .create body now => (createTask st body now).2
  | .update seg body now => (updateTask st seg body now).2
  | .del seg => (deleteTask st seg).2

/-- The state after running a sequence of operations. -/
def run (st : Store) : List Op → Store
  | [] => st
  | op :: ops => run (step st op) ops

/-- A store is reachable when some sequence of operations produces it from
the initial store (for some startup time). -/
def reachable (st : Store) : Prop := ∃ t0 ops, run (initStore t0) ops = st

/-- The store invariant: live ids are pairwise distinct and all below
`nextId`. -/
def storeInv (st : Store) : Prop :=
  (st.tasks.map Task.id).Nodup ∧ ∀ t ∈ st.tasks, t.id < st.nextId

/-- When the body's `title` is truthy it is a present value. -/
theorem truthyOpt_eq_true_iff {o : Option JsVal} :
    truthyOpt o = true ↔ ∃ v, o = some v ∧ v.truthy = true := by
  cases o <;> simp [truthyOpt]

/-- C1: a create request with a non-falsy `title` succeeds with 201: the new
task takes the current `nextId` (the counter starts at 2, id 1 being
pre-seeded) and the counter is incremented, `createdAt` is set to the request
time, `description` defaults to `""` and `completed` to `false` when absent,
the task is appended at the end of the collection, the created record is
returned, and it has no `updatedAt` field. -/
theorem create_success (st : Store) (body : Body) (now : Nat)
    (h : truthyOpt body.title = true) :
    ∃ newTask : Task,
      (createTask st body now).1.status = 201 ∧
      (createTask st body now).1.success = true ∧
      (createTask st body now).1.data = some newTask ∧
      newTask.id = st.nextId ∧
      (createTask st body now).2.nextId = st.nextId + 1 ∧
      newTask.createdAt = now ∧
      (body.description = none → newTask.description = .vStr "") ∧
      (body.completed = none → newTask.completed = .vBool false) ∧
      (createTask st body now).2.tasks = st.tasks ++ [newTask] ∧
      newTask.updatedAt = none ∧
      (∀ t0, (initStore t0).nextId = 2 ∧ (initStore t0).tasks.map Task.id = [1]) := by
  obtain ⟨tv, hb, -⟩ := truthyOpt_eq_true_iff.mp h
  rw [hb] at h
  refine ⟨{ id := st.nextId, title := tv,
            description := jsOr body.description (.vStr ""),
            completed := jsOr body.completed (.vBool false),
            createdAt := now, updatedAt := none }, ?_⟩
  simp [createTask, hb, h, jsOr, initStore, seedTask]
  constructor
  · intro hd; rw [hd]
  · intro hc; rw [hc]

/-- Witness for `create_success` at `title:"Buy milk"` on the initial store. -/
theorem create_success_witness :
    truthyOpt (Body.mk (some (.vStr "Buy milk")) none none).title = true ∧
    (createTask (initStore 0) (Body.mk (some (.vStr "Buy milk")) none none) 5).1.status = 201 := by
  refine ⟨by decide, ?_⟩
  obtain ⟨nt, h1, -⟩ :=
    create_success (initStore 0) (Body.mk (some (.vStr "Buy milk")) none none) 5 (by decide)
  exact h1

/-- C2: a create request whose `title` is missing or falsy fails with 400 and
the envelope `{success:false, message}`, and the state — the whole task
collection and the `nextId` counter — is unchanged. -/
theorem create_validation_error (st : Store) (body : Body) (now : Nat)
    (h : truthyOpt body.title = false) :
    (createTask st body now).1.status = 400 ∧
    (createTask st body now).1.success = false ∧
    (createTask st body now).1.message = some "O campo \"title\" é obrigatório" ∧
    (createTask st body now).2 = st := by
  simp [createTask, h]

/-- Witness for `create_validation_error` at `title:""`. -/
theorem create_validation_error_witness :
    truthyOpt (Body.mk (some (.vStr "")) none none).title = false ∧
    (createTask (initStore 0) (Body.mk (some (.vStr "")) none none) 5).1.status = 400 ∧
    (createTask (initStore 0) (Body.mk (some (.vStr "")) none none) 5).2 = initStore 0 := by
  have h := create_validation_error (initStore 0) (Body.mk (some (.vStr "")) none none) 5 (by decide)
  exact ⟨by decide, h.1, h.2.2.2⟩

/-- C3 as stated is refuted: the path segment `"1abc"` is non-numeric, yet
`GET /api/tasks/1abc` on the initial store answers 200, not 404, because
`parseInt("1abc")` yields `1`, which matches the seeded task. -/
theorem get_nonNumeric_counterexample :
    (getTask (initStore 0) "1abc").status = 200 ∧
    (getTask (initStore 0) "1abc").status ≠ 404 ∧
    (getTask (initStore 0) "1abc").data = some (seedTask 0) := by
  refine ⟨by decide, by decide, by decide⟩

/-- C3 amended: get-by-id answers 200 with a stored record whose id equals
`parseInt` of the path segment exactly when such a task exists; otherwise it
answers 404 with `{success:false, message}`.  A wholly non-numeric segment
(`parseInt` = NaN) therefore always yields 404 — never a validation error —
but a segment with a numeric prefix such as `"1abc"` parses to the prefix and
can match. -/
theorem get_by_id_spec (st : Store) (seg : String) :
    (((getTask st seg).status = 200 ∧ (getTask st seg).success = true ∧
        ∃ t ∈ st.tasks, (getTask st seg).data = some t ∧ parseIntJs seg = some (t.id : Int))
      ↔ ∃ t ∈ st.tasks, parseIntJs seg = some (t.id : Int)) ∧
    ((¬ ∃ t ∈ st.tasks, parseIntJs seg = some (t.id : Int)) →
      (getTask st seg).status = 404 ∧ (getTask st seg).success = false ∧
      (getTask st seg).message = some "Tarefa não encontrada") := by
  cases hp : parseIntJs seg with
  | none =>
    constructor
    · constructor
      · rintro ⟨-, -, t, -, -, ht⟩; cases ht
      · rintro ⟨t, -, ht⟩; cases ht
    · intro _; simp [getTask, hp, notFound]
  | some i =>
    cases hf : st.tasks.find? (idMatches i) with
    | some t =>
      have hmem : t ∈ st.tasks := List.mem_of_find?_eq_some hf
      have hid : (t.id : Int) = i := by
        have := List.find?_some hf
        simpa [idMatches] using this
      constructor
      · constructor
        · rintro ⟨-, -, u, hu, -, hpu⟩
          exact ⟨u, hu, hpu⟩
        · intro _
          refine ⟨by simp [getTask, hp, hf], by simp [getTask, hp, hf],
                  t, hmem, by simp [getTask, hp, hf], by rw [hid]⟩
      · intro hno
        exact absurd ⟨t, hmem, by rw [hid]⟩ hno
    | none =>
      have hall := List.find?_eq_none.mp hf
      constructor
      · constructor
        · rintro ⟨h200, -⟩
          simp [getTask, hp, hf, notFound] at h200
        · rintro ⟨t, hmem, hpt⟩
          injection hpt with hpt
          have hmatch : idMatches i t = true := by simp [idMatches, hpt]
          exact absurd hmatch (by simpa using hall t hmem)
      · intro _; simp [getTask, hp, hf, notFound]

/-- Witness for `get_by_id_spec`: on the initial store, segment `"1"` answers
200 and segment `"abc"` answers 404. -/
theorem get_by_id_spec_witness :
    (getTask (initStore 0) "1").status = 200 ∧
    (getTask (initStore 0) "abc").status = 404 := by
  have h1 := ((get_by_id_spec (initStore 0) "1").1.mpr ⟨seedTask 0, by decide, by decide⟩).1
  have h2 := ((get_by_id_spec (initStore 0) "abc").2 (by decide)).1
  exact ⟨h1, h2⟩

/-- C4: updating an existing task overwrites exactly the body fields that are
present (not `undefined`), and a field explicitly set to a falsy value is
still applied — the merge distinguishes defined from undefined; `updatedAt`
is set and the updated record is returned. -/
theorem update_merge_defined (st : Store) (seg : String) (body : Body) (now : Nat)
    (i : Int) (idx : Nat) (old : Task)
    (hp : parseIntJs seg = some i)
    (hidx : st.tasks.findIdx? (idMatches i) = some idx)
    (hold : st.tasks[idx]? = some old) :
    (updateTask st seg body now).1.status = 200 ∧
    (updateTask st seg body now).1.success = true ∧
    (updateTask st seg body now).1.data = some (mergeTask old body now) ∧
    (∀ v, body.title = some v → (mergeTask old body now).title = v) ∧
    (∀ v, body.description = some v → (mergeTask old body now).description = v) ∧
    (∀ v, body.completed = some v → (mergeTask old body now).completed = v) ∧
    (mergeTask old body now).updatedAt = some now ∧
    (updateTask st seg body now).2.tasks = st.tasks.set idx (mergeTask old body now) := by
  refine ⟨by simp [updateTask, hp, hidx, hold], by simp [updateTask, hp, hidx, hold],
          by simp [updateTask, hp, hidx, hold], ?_, ?_, ?_,
          by simp [mergeTask], by simp [updateTask, hp, hidx, hold]⟩
  · intro v hv; simp [mergeTask, hv]
  · intro v hv; simp [mergeTask, hv]
  · intro v hv; simp [mergeTask, hv]

/-- Witness for `update_merge_defined`: explicitly setting `completed:false`
on the seeded task is applied even though `false` is falsy. -/
theorem update_merge_defined_witness :
    (updateTask (initStore 3) "1" (Body.mk none none (some (.vBool false))) 7).1.status = 200 ∧
    (mergeTask (seedTask 3) (Body.mk none none (some (.vBool false))) 7).completed = .vBool false ∧
    (mergeTask (seedTask 3) (Body.mk none none (some (.vBool false))) 7).updatedAt = some 7 := by
  have h := update_merge_defined (initStore 3) "1" (Body.mk none none (some (.vBool false))) 7
    1 0 (seedTask 3) (by decide) (by decide) (by decide)
  exact ⟨h.1, h.2.2.2.2.2.1 _ rfl, h.2.2.2.2.2.2.1⟩

/-- C5: a successful update leaves the task's `id` and `createdAt` unchanged,
leaves every body-absent field unchanged, leaves every other task unchanged,
and preserves the collection's length and order (and the `nextId` counter). -/
theorem update_frame (st : Store) (seg : String) (body : Body) (now : Nat)
    (i : Int) (idx : Nat) (old : Task)
    (hp : parseIntJs seg = some i)
    (hidx : st.tasks.findIdx? (idMatches i) = some idx)
    (hold : st.tasks[idx]? = some old) :
    (mergeTask old body now).id = old.id ∧
    (mergeTask old body now).createdAt = old.createdAt ∧
    (body.title = none → (mergeTask old body now).title = old.title) ∧
    (body.description = none → (mergeTask old body now).description = old.description) ∧
    (body.completed = none → (mergeTask old body now).completed = old.completed) ∧
    (updateTask st seg body now).2.tasks.length = st.tasks.length ∧
    (∀ j, j ≠ idx → (updateTask st seg body now).2.tasks[j]? = st.tasks[j]?) ∧
    (updateTask st seg body now).2.tasks[idx]? = some (mergeTask old body now) ∧
    (updateTask st seg body now).2.nextId = st.nextId := by
  have hlt : idx < st.tasks.length := by
    rw [List.findIdx?_eq_some_iff_getElem] at hidx
    exact hidx.1
  refine ⟨rfl, rfl, ?_, ?_, ?_,
          by simp [updateTask, hp, hidx, hold],
          ?_, ?_, by simp [updateTask, hp, hidx, hold]⟩
  · intro hv; simp [mergeTask, hv]
  · intro hv; simp [mergeTask, hv]
  · intro hv; simp [mergeTask, hv]
  · intro j hj
    simp only [updateTask, hp, hidx, hold]
    exact List.getElem?_set_ne (Ne.symm hj)
  · simp only [updateTask, hp, hidx, hold]
    exact List.getElem?_set_self hlt

/-- Witness for `update_frame` at `{completed:true}` on the seeded task. -/
theorem update_frame_witness :
    (mergeTask (seedTask 3) (Body.mk none none (some (.vBool true))) 7).id = (seedTask 3).id ∧
    (mergeTask (seedTask 3) (Body.mk none none (some (.vBool true))) 7).createdAt = 3 ∧
    (mergeTask (seedTask 3) (Body.mk none none (some (.vBool true))) 7).title =
      (seedTask 3).title ∧
    (updateTask (initStore 3) "1" (Body.mk none none (some (.vBool true))) 7).2.tasks.length =
      (initStore 3).tasks.length := by
  have h := update_frame (initStore 3) "1" (Body.mk none none (some (.vBool true))) 7
    1 0 (seedTask 3) (by decide) (by decide) (by decide)
  exact ⟨h.1, h.2.1, h.2.2.1 rfl, h.2.2.2.2.2.1⟩

/-- C6: an update or delete whose id matches no task answers 404 with
`{success:false, message}` and leaves the whole state — collection and
`nextId` counter — unchanged. -/
theorem update_delete_notFound (st : Store) (seg : String) (body : Body) (now : Nat)
    (h : ∀ t ∈ st.tasks, parseIntJs seg ≠ some (t.id : Int)) :
    (updateTask st seg body now).1.status = 404 ∧
    (updateTask st seg body now).1.success = false ∧
    (updateTask st seg body now).1.message = some "Tarefa não encontrada" ∧
    (updateTask st seg body now).2 = st ∧
    (deleteTask st seg).1.status = 404 ∧
    (deleteTask st seg).1.success = false ∧
    (deleteTask st seg).1.message = some "Tarefa não encontrada" ∧
    (deleteTask st seg).2 = st := by
  cases hp : parseIntJs seg with
  | none => simp [updateTask, deleteTask, hp, notFound]
  | some i =>
    have hf : st.tasks.findIdx? (idMatches i) = none := by
      rw [List.findIdx?_eq_none_iff]
      intro t ht
      have hne := h t ht
      rw [hp] at hne
      simp only [ne_eq, Option.some.injEq] at hne
      simp only [idMatches, beq_eq_false_iff_ne, ne_eq]
      exact fun hh => hne hh.symm
    simp [updateTask, deleteTask, hp, hf, notFound]

/-- Witness for `update_delete_notFound` at the unknown id 9999. -/
theorem update_delete_notFound_witness :
    (updateTask (initStore 0) "9999" (Body.mk none none none) 7).1.status = 404 ∧
    (updateTask (initStore 0) "9999" (Body.mk none none none) 7).2 = initStore 0 ∧
    (deleteTask (initStore 0) "9999").1.status = 404 ∧
    (deleteTask (initStore 0) "9999").2 = initStore 0 := by
  have h := update_delete_notFound (initStore 0) "9999" (Body.mk none none none) 7 (by decide)
  exact ⟨h.1, h.2.2.2.1, h.2.2.2.2.1, h.2.2.2.2.2.2.2⟩

/-- C7: deleting an existing task removes exactly that task, the remaining
tasks keep their relative order, the length (and the `total` a subsequent
list reports) decreases by exactly 1, and the removed record is returned with
`{success:true}`. -/
theorem delete_success (st : Store) (seg : String)
    (i : Int) (idx : Nat) (old : Task)
    (hp : parseIntJs seg = some i)
    (hidx : st.tasks.findIdx? (idMatches i) = some idx)
    (hold : st.tasks[idx]? = some old) :
    (deleteTask st seg).1.status = 200 ∧
    (deleteTask st seg).1.success = true ∧
    (deleteTask st seg).1.data = some old ∧
    (deleteTask st seg).2.tasks = st.tasks.eraseIdx idx ∧
    (deleteTask st seg).2.tasks = st.tasks.take idx ++ st.tasks.drop (idx + 1) ∧
    (deleteTask st seg).2.tasks.length + 1 = st.tasks.length ∧
    (listTasks (deleteTask st seg).2).total + 1 = (listTasks st).total := by
  have hlt : idx < st.tasks.length := by
    rw [List.findIdx?_eq_some_iff_getElem] at hidx
    exact hidx.1
  have hlen : (st.tasks.eraseIdx idx).length = st.tasks.length - 1 :=
    List.length_eraseIdx_of_lt hlt
  refine ⟨by simp [deleteTask, hp, hidx, hold], by simp [deleteTask, hp, hidx, hold],
          by simp [deleteTask, hp, hidx, hold], by simp [deleteTask, hp, hidx, hold],
          ?_, ?_, ?_⟩
  · simp only [deleteTask, hp, hidx, hold]
    exact List.eraseIdx_eq_take_drop_succ st.tasks idx
  · simp only [deleteTask, hp, hidx, hold, hlen]
    omega
  · simp only [deleteTask, hp, hidx, hold, listTasks, hlen]
    omega

/-- Witness for `delete_success` on the seeded task. -/
theorem delete_success_witness :
    (deleteTask (initStore 0) "1").1.status = 200 ∧
    (deleteTask (initStore 0) "1").1.data = some (seedTask 0) ∧
    (deleteTask (initStore 0) "1").2.tasks.length + 1 = (initStore 0).tasks.length := by
  have h := delete_success (initStore 0) "1" 1 0 (seedTask 0) (by decide) (by decide) (by decide)
  exact ⟨h.1, h.2.2.1, h.2.2.2.2.2.1⟩

/-- C10: update performs no validation of the supplied values — a body whose
`title` is explicitly `null` is merged (because `null !== undefined`), so the
stored title becomes `null` even though the data model calls for a non-empty
string; and update never answers 400 on any input. -/
theorem update_no_validation (st : Store) (seg : String) (body : Body) (now : Nat)
    (i : Int) (idx : Nat) (old : Task)
    (hp : parseIntJs seg = some i)
    (hidx : st.tasks.findIdx? (idMatches i) = some idx)
    (hold : st.tasks[idx]? = some old)
    (hnull : body.title = some .vNull) :
    (updateTask st seg body now).1.status = 200 ∧
    (mergeTask old body now).title = .vNull ∧
    (updateTask st seg body now).2.tasks[idx]? = some (mergeTask old body now) ∧
    (∀ st2 seg2 body2 now2, (updateTask st2 seg2 body2 now2).1.status ≠ 400) := by
  have hlt : idx < st.tasks.length := by
    rw [List.findIdx?_eq_some_iff_getElem] at hidx
    exact hidx.1
  refine ⟨by simp [updateTask, hp, hidx, hold], by simp [mergeTask, hnull], ?_, ?_⟩
  · simp only [updateTask, hp, hidx, hold]
    exact List.getElem?_set_self hlt
  · intro st2 seg2 body2 now2
    cases hp2 : parseIntJs seg2 with
    | none => simp [updateTask, hp2, notFound]
    | some j =>
      cases hf2 : st2.tasks.findIdx? (idMatches j) with
      | none => simp [updateTask, hp2, hf2, notFound]
      | some k =>
        cases ho2 : st2.tasks[k]? with
        | none => simp [updateTask, hp2, hf2, ho2, notFound]
        | some o => simp [updateTask, hp2, hf2, ho2]

/-- Witness for `update_no_validation`: nulling out the seeded task's title. -/
theorem update_no_validation_witness :
    (updateTask (initStore 0) "1" (Body.mk (some .vNull) none none) 7).1.status = 200 ∧
    (mergeTask (seedTask 0) (Body.mk (some .vNull) none none) 7).title = .vNull ∧
    (updateTask (initStore 0) "2" (Body.mk none none none) 7).1.status ≠ 400 := by
  have h := update_no_validation (initStore 0) "1" (Body.mk (some .vNull) none none) 7
    1 0 (seedTask 0) (by decide) (by decide) (by decide) rfl
  exact ⟨h.1, h.2.1, h.2.2.2 (initStore 0) "2" (Body.mk none none none) 7⟩

/-- Replacing a slot with a task of the same id leaves the id list as is. -/
theorem map_id_set_same (l : List Task) (idx : Nat) (u old : Task)
    (ho : l[idx]? = some old) (hid : u.id = old.id) :
    (l.set idx u).map Task.id = l.map Task.id := by
  apply List.ext_getElem?
  intro j
  by_cases hj : j = idx
  · subst hj
    have hlt : j < l.length := (List.getElem?_eq_some_iff.mp ho).1
    rw [List.getElem?_map, List.getElem?_map, List.getElem?_set_self (by simpa using hlt), ho]
    simp [hid]
  · rw [List.getElem?_map, List.getElem?_map, List.getElem?_set_ne (Ne.symm hj)]

/-- The invariant holds in the initial store. -/
theorem storeInv_init (t0 : Nat) : storeInv (initStore t0) := by
  constructor
  · simp [initStore, seedTask]
  · intro t ht
    simp only [initStore, List.mem_singleton] at ht
    subst ht
    simp [initStore, seedTask]

/-- Each operation preserves the store invariant. -/
theorem storeInv_step (st : Store) (op : Op) (h : storeInv st) : storeInv (step st op) := by
  obtain ⟨hnodup, hlt⟩ := h
  cases op with
  | create body now =>
    by_cases htr : truthyOpt body.title = true
    · obtain ⟨tv, hb, -⟩ := truthyOpt_eq_true_iff.mp htr
      rw [hb] at htr
      simp only [step, createTask, hb, htr, if_true]
      constructor
      · rw [List.map_append, List.nodup_append]
        refine ⟨hnodup, by simp, ?_⟩
        intro a ha hmem
        obtain ⟨t, htm, rfl⟩ := List.mem_map.mp ha
        simp only [List.map_cons, List.map_nil, List.mem_singleton] at hmem
        exact absurd hmem (Nat.ne_of_lt (hlt t htm))
      · intro t htm
        rcases List.mem_append.mp htm with hin | hnew
        · exact Nat.lt_succ_of_lt (hlt t hin)
        · simp only [List.mem_singleton] at hnew
          subst hnew
          exact Nat.lt_succ_self _
    · rw [Bool.not_eq_true] at htr
      simpa [step, createTask, htr] using ⟨hnodup, hlt⟩
  | update seg body now =>
    cases hp : parseIntJs seg with
    | none =>
      have hst : step st (Op.update seg body now) = st := by simp [step, updateTask, hp]
      rw [hst]; exact ⟨hnodup, hlt⟩
    | some i =>
      cases hf : st.tasks.findIdx? (idMatches i) with
      | none =>
        have hst : step st (Op.update seg body now) = st := by simp [step, updateTask, hp, hf]
        rw [hst]; exact ⟨hnodup, hlt⟩
      | some idx =>
        cases ho : st.tasks[idx]? with
        | none =>
          have hst : step st (Op.update seg body now) = st := by
            simp [step, updateTask, hp, hf, ho]
          rw [hst]; exact ⟨hnodup, hlt⟩
        | some old =>
          have hst : step st (Op.update seg body now)
              = { tasks := st.tasks.set idx (mergeTask old body now), nextId := st.nextId } := by
            simp [step, updateTask, hp, hf, ho]
          rw [hst]
          constructor
          · show (List.map Task.id (st.tasks.set idx (mergeTask old body now))).Nodup
            rw [map_id_set_same st.tasks idx (mergeTask old body now) old ho rfl]
            exact hnodup
          · intro t htm
            have htm' : t ∈ st.tasks.set idx (mergeTask old body now) := htm
            show t.id < st.nextId
            rcases List.mem_or_eq_of_mem_set htm' with hin | heq
            · exact hlt t hin
            · subst heq
              exact hlt old (List.getElem?_mem ho)
  | del seg =>
    cases hp : parseIntJs seg with
    | none =>
      have hst : step st (Op.del seg) = st := by simp [step, deleteTask, hp]
      rw [hst]; exact ⟨hnodup, hlt⟩
    | some i =>
      cases hf : st.tasks.findIdx? (idMatches i) with
      | none =>
        have hst : step st (Op.del seg) = st := by simp [step, deleteTask, hp, hf]
        rw [hst]; exact ⟨hnodup, hlt⟩
      | some idx =>
        cases ho : st.tasks[idx]? with
        | none =>
          have hst : step st (Op.del seg) = st := by simp [step, deleteTask, hp, hf, ho]
          rw [hst]; exact ⟨hnodup, hlt⟩
        | some old =>
          have hst : step st (Op.del seg)
              = { tasks := st.tasks.eraseIdx idx, nextId := st.nextId } := by
            simp [step, deleteTask, hp, hf, ho]
          rw [hst]
          constructor
          · exact hnodup.sublist ((st.tasks.eraseIdx_sublist idx).map Task.id)
          · intro t htm
            have htm' : t ∈ st.tasks.eraseIdx idx := htm
            show t.id < st.nextId
            exact hlt t ((st.tasks.eraseIdx_sublist idx).mem htm')

/-- The invariant holds along any run. -/
theorem storeInv_run (st : Store) (ops : List Op) (h : storeInv st) :
    storeInv (run st ops) := by
  induction ops generalizing st with
  | nil => exact h
  | cons op ops ih => exact ih _ (storeInv_step st op h)

/-- With distinct live ids, two stored tasks with the same id are equal. -/
theorem eq_of_mem_of_id_eq (st : Store) (h : storeInv st) {t t' : Task}
    (ht : t ∈ st.tasks) (ht' : t' ∈ st.tasks) (hid : t'.id = t.id) : t' = t :=
  List.inj_on_of_nodup_map h.1 ht' ht hid

/-- Erasing a slot commutes with projecting the ids. -/
theorem map_id_eraseIdx (l : List Task) (idx : Nat) :
    (l.eraseIdx idx).map Task.id = (l.map Task.id).eraseIdx idx := by
  induction l generalizing idx with
  | nil => rfl
  | cons t ts ih =>
    cases idx with
    | zero => rfl
    | succ n => simp [List.eraseIdx, ih]

/-- Every operation leaves the id list alone, appends the fresh `nextId`, or
erases one entry: it never rewrites the id of a task that survives. -/
theorem step_id_shape (st : Store) (op : Op) :
    (step st op).tasks.map Task.id = st.tasks.map Task.id ∨
    (step st op).tasks.map Task.id = st.tasks.map Task.id ++ [st.nextId] ∨
    ∃ idx, (step st op).tasks.map Task.id = (st.tasks.map Task.id).eraseIdx idx := by
  cases op with
  | create body now =>
    by_cases htr : truthyOpt body.title = true
    · obtain ⟨tv, hb, -⟩ := truthyOpt_eq_true_iff.mp htr
      rw [hb] at htr
      have hst : (step st (Op.create body now)).tasks
          = st.tasks ++ [Task.mk st.nextId tv (jsOr body.description (.vStr ""))
              (jsOr body.completed (.vBool false)) now none] := by
        simp [step, createTask, hb, htr]
      rw [hst, List.map_append]
      exact Or.inr (Or.inl rfl)
    · rw [Bool.not_eq_true] at htr
      have hst : step st (Op.create body now) = st := by simp [step, createTask, htr]
      rw [hst]
      exact Or.inl rfl
  | update seg body now =>
    cases hp : parseIntJs seg with
    | none =>
      have hst : step st (Op.update seg body now) = st := by simp [step, updateTask, hp]
      rw [hst]; exact Or.inl rfl
    | some i =>
      cases hf : st.tasks.findIdx? (idMatches i) with
      | none =>
        have hst : step st (Op.update seg body now) = st := by simp [step, updateTask, hp, hf]
        rw [hst]; exact Or.inl rfl
      | some idx =>
        cases ho : st.tasks[idx]? with
        | none =>
          have hst : step st (Op.update seg body now) = st := by
            simp [step, updateTask, hp, hf, ho]
          rw [hst]; exact Or.inl rfl
        | some old =>
          have hst : (step st (Op.update seg body now)).tasks
              = st.tasks.set idx (mergeTask old body now) := by
            simp [step, updateTask, hp, hf, ho]
          rw [hst, map_id_set_same st.tasks idx (mergeTask old body now) old ho rfl]
          exact Or.inl rfl
  | del seg =>
    cases hp : parseIntJs seg with
    | none =>
      have hst : step st (Op.del seg) = st := by simp [step, deleteTask, hp]
      rw [hst]; exact Or.inl rfl
    | some i =>
      cases hf : st.tasks.findIdx? (idMatches i) with
      | none =>
        have hst : step st (Op.del seg) = st := by simp [step, deleteTask, hp, hf]
        rw [hst]; exact Or.inl rfl
      | some idx =>
        cases ho : st.tasks[idx]? with
        | none =>
          have hst : step st (Op.del seg) = st := by simp [step, deleteTask, hp, hf, ho]
          rw [hst]; exact Or.inl rfl
        | some old =>
          have hst : (step st (Op.del seg)).tasks = st.tasks.eraseIdx idx := by
            simp [step, deleteTask, hp, hf, ho]
          rw [hst, map_id_eraseIdx]
          exact Or.inr (Or.inr ⟨idx, rfl⟩)

/-- No operation changes the id or `createdAt` of a surviving task. -/
theorem step_preserves_createdAt (st : Store) (h : storeInv st) (op : Op)
    {t t' : Task} (ht : t ∈ st.tasks) (ht' : t' ∈ (step st op).tasks)
    (hid : t'.id = t.id) : t'.createdAt = t.createdAt := by
  obtain ⟨hnodup, hlt⟩ := h
  cases op with
  | create body now =>
    by_cases htr : truthyOpt body.title = true
    · obtain ⟨tv, hb, -⟩ := truthyOpt_eq_true_iff.mp htr
      rw [hb] at htr
      simp only [step, createTask, hb, htr, if_true] at ht'
      rcases List.mem_append.mp ht' with hin | hnew
      · rw [eq_of_mem_of_id_eq st ⟨hnodup, hlt⟩ ht hin hid]
      · simp only [List.mem_singleton] at hnew
        subst hnew
        simp only at hid
        exact absurd (hid ▸ hlt t ht) (Nat.lt_irrefl st.nextId)
    · rw [Bool.not_eq_true] at htr
      simp only [step, createTask, htr] at ht'
      simp only [Bool.false_eq_true, if_false] at ht'
      rw [eq_of_mem_of_id_eq st ⟨hnodup, hlt⟩ ht ht' hid]
  | update seg body now =>
    cases hp : parseIntJs seg with
    | none =>
      have hst : step st (Op.update seg body now) = st := by simp [step, updateTask, hp]
      rw [hst] at ht'
      rw [eq_of_mem_of_id_eq st ⟨hnodup, hlt⟩ ht ht' hid]
    | some i =>
      cases hf : st.tasks.findIdx? (idMatches i) with
      | none =>
        have hst : step st (Op.update seg body now) = st := by simp [step, updateTask, hp, hf]
        rw [hst] at ht'
        rw [eq_of_mem_of_id_eq st ⟨hnodup, hlt⟩ ht ht' hid]
      | some idx =>
        cases ho : st.tasks[idx]? with
        | none =>
          have hst : step st (Op.update seg body now) = st := by
            simp [step, updateTask, hp, hf, ho]
          rw [hst] at ht'
          rw [eq_of_mem_of_id_eq st ⟨hnodup, hlt⟩ ht ht' hid]
        | some old =>
          have hst : (step st (Op.update seg body now)).tasks
              = st.tasks.set idx (mergeTask old body now) := by
            simp [step, updateTask, hp, hf, ho]
          rw [hst] at ht'
          rcases List.mem_or_eq_of_mem_set ht' with hin | heq
          · rw [eq_of_mem_of_id_eq st ⟨hnodup, hlt⟩ ht hin hid]
          · have hold : old ∈ st.tasks := List.getElem?_mem ho
            have hidm : (mergeTask old body now).id = old.id := rfl
            have hot : old = t :=
              eq_of_mem_of_id_eq st ⟨hnodup, hlt⟩ ht hold (by rw [← hidm, ← heq, hid])
            subst heq
            rw [← hot]
            rfl
  | del seg =>
    cases hp : parseIntJs seg with
    | none =>
      have hst : step st (Op.del seg) = st := by simp [step, deleteTask, hp]
      rw [hst] at ht'
      rw [eq_of_mem_of_id_eq st ⟨hnodup, hlt⟩ ht ht' hid]
    | some i =>
      cases hf : st.tasks.findIdx? (idMatches i) with
      | none =>
        have hst : step st (Op.del seg) = st := by simp [step, deleteTask, hp, hf]
        rw [hst] at ht'
        rw [eq_of_mem_of_id_eq st ⟨hnodup, hlt⟩ ht ht' hid]
      | some idx =>
        cases ho : st.tasks[idx]? with
        | none =>
          have hst : step st (Op.del seg) = st := by simp [step, deleteTask, hp, hf, ho]
          rw [hst] at ht'
          rw [eq_of_mem_of_id_eq st ⟨hnodup, hlt⟩ ht ht' hid]
        | some old =>
          have hst : (step st (Op.del seg)).tasks = st.tasks.eraseIdx idx := by
            simp [step, deleteTask, hp, hf, ho]
          rw [hst] at ht'
          have hin : t' ∈ st.tasks := (st.tasks.eraseIdx_sublist idx).mem ht'
          rw [eq_of_mem_of_id_eq st ⟨hnodup, hlt⟩ ht hin hid]

/-- C8: in every state reachable from the initial store by create, update and
delete operations, live task ids are pairwise distinct, every id is strictly
below the `nextId` counter (so deleted ids are never reused), no operation
ever changes an existing task's id (every step leaves the id list unchanged,
appends the fresh `nextId`, or erases exactly one entry), and no operation
changes a surviving task's `createdAt`. -/
theorem reachable_invariants (st : Store) (h : reachable st) :
    (st.tasks.map Task.id).Nodup ∧
    (∀ t ∈ st.tasks, t.id < st.nextId) ∧
    (∀ op : Op,
      (step st op).tasks.map Task.id = st.tasks.map Task.id ∨
      (step st op).tasks.map Task.id = st.tasks.map Task.id ++ [st.nextId] ∨
      ∃ idx, (step st op).tasks.map Task.id = (st.tasks.map Task.id).eraseIdx idx) ∧
    (∀ op : Op, ∀ t' ∈ (step st op).tasks, ∀ t ∈ st.tasks,
      t'.id = t.id → t'.createdAt = t.createdAt) := by
  obtain ⟨t0, ops, rfl⟩ := h
  have hinv : storeInv (run (initStore t0) ops) :=
    storeInv_run (initStore t0) ops (storeInv_init t0)
  exact ⟨hinv.1, hinv.2, fun op => step_id_shape _ op, fun op t' ht' t ht hid =>
    step_preserves_createdAt _ hinv op ht ht' hid⟩

/-- Witness for `reachable_invariants`: the initial store (reachable by the
empty run) satisfies the invariant, a create appends exactly the fresh id 2
to the id list `[1]`, and an update keeps the seeded task's `createdAt`. -/
theorem reachable_invariants_witness :
    reachable (initStore 0) ∧
    ((initStore 0).tasks.map Task.id).Nodup ∧
    (seedTask 0).id < (initStore 0).nextId ∧
    (step (initStore 0) (Op.create (Body.mk (some (.vStr "x")) none none) 5)).tasks.map Task.id
      = (initStore 0).tasks.map Task.id ++ [(initStore 0).nextId] ∧
    (mergeTask (seedTask 0) (Body.mk none none (some (.vBool true))) 7).createdAt =
      (seedTask 0).createdAt := by
  have hreach : reachable (initStore 0) := ⟨0, [], rfl⟩
  have h := reachable_invariants (initStore 0) hreach
  refine ⟨hreach, h.1, h.2.1 (seedTask 0) (by simp [initStore]), ?_, ?_⟩
  · rcases h.2.2.1 (Op.create (Body.mk (some (.vStr "x")) none none) 5) with hA | hB | ⟨idx, hC⟩
    · exact absurd hA (by decide)
    · exact hB
    · exfalso
      have hC' : ([1, 2] : List Nat) = ([1] : List Nat).eraseIdx idx := hC
      cases idx with
      | zero => simp [List.eraseIdx] at hC'
      | succ n => simp [List.eraseIdx] at hC'
  · exact h.2.2.2 (Op.update "1" (Body.mk none none (some (.vBool true))) 7)
      (mergeTask (seedTask 0) (Body.mk none none (some (.vBool true))) 7)
      (by decide) (seedTask 0) (by simp [initStore]) rfl

/-- C9: creating a task with a valid title and then getting it by the id of
the returned record succeeds and yields that very record, field for field.
(The hypothesis that live ids are below `nextId` is the store invariant,
which holds in every reachable state by `reachable_invariants`.) -/
theorem create_get_roundtrip (st : Store) (body : Body) (now : Nat) (seg : String)
    (hids : ∀ t ∈ st.tasks, t.id < st.nextId)
    (h : truthyOpt body.title = true)
    (hseg : parseIntJs seg = some (st.nextId : Int)) :
    ∃ newTask : Task, (createTask st body now).1.data = some newTask ∧
      getTask (createTask st body now).2 seg =
        { status := 200, success := true, message := none, data := some newTask } := by
  obtain ⟨tv, hb, -⟩ := truthyOpt_eq_true_iff.mp h
  rw [hb] at h
  refine ⟨{ id := st.nextId, title := tv,
            description := jsOr body.description (.vStr ""),
            completed := jsOr body.completed (.vBool false),
            createdAt := now, updatedAt := none }, ?_, ?_⟩
  · simp [createTask, hb, h]
  · have hnone : st.tasks.find? (idMatches (st.nextId : Int)) = none := by
      rw [List.find?_eq_none]
      intro t ht
      simp only [idMatches, beq_iff_eq, Int.natCast_inj]
      exact fun hc => absurd (hc ▸ hids t ht) (Nat.lt_irrefl st.nextId)
    simp only [createTask, hb, h, if_true, getTask, hseg, List.find?_append, hnone,
      Option.none_or]
    simp [idMatches]

/-- Witness for `create_get_roundtrip`: create `title:"Buy milk"` on the
initial store, then get `/api/tasks/2`. -/
theorem create_get_roundtrip_witness :
    (getTask (createTask (initStore 0) (Body.mk (some (.vStr "Buy milk")) none none) 5).2
      "2").status = 200 ∧
    (getTask (createTask (initStore 0) (Body.mk (some (.vStr "Buy milk")) none none) 5).2
      "2").data =
      (createTask (initStore 0) (Body.mk (some (.vStr "Buy milk")) none none) 5).1.data := by
  obtain ⟨nt, hd, hg⟩ := create_get_roundtrip (initStore 0)
    (Body.mk (some (.vStr "Buy milk")) none none) 5 "2"
    (by decide) (by decide) (by decide)
  rw [hg, hd]
  exact ⟨rfl, rfl⟩

end TodoApi
